import Mathlib

/-!
# Verification of the conversation orchestration engine of `llm-chat`

Shallow embedding of `src/components/LlmChat/ChatView.tsx` (the
`handleSendMessage` orchestration loop, the context/cache shaper
`cachedApiMessages`, the elision policy around `savedToolResults` /
`newestToolResultId` / `apiMessagesToSend`, the title generation step and
the tool dispatcher), together with proofs about the claims of the
specification.

Conventions of the embedding:
* `Message.timestamp` (a JS `Date`) and the never-populated `toolInput`
  field are omitted: no modelled computation reads them.
* JS `Set<string>` is modelled as a duplicate-free `List String`
  (`insertId` only adds an absent element, so deletion-by-filter agrees
  with `Set.delete`).
* JS string routines used by the code (`split`, `trim`, `replace` with a
  plain pattern and empty replacement) are re-implemented structurally on
  `List Char` so that every concrete run reduces inside the kernel.
-/

/-- Message role (`'user' | 'assistant'`, ChatView.tsx line 156 / 313). -/
inductive Role
  | user
  | assistant
deriving DecidableEq

/-- One content block of a message, the `MessageContent` tagged union of
`types.ts`: `text`, `tool_use`, `tool_result`.  The optional `is_error`
field of a tool result (set at ChatView.tsx line 415) is a `Bool`. -/
inductive BlockData
  | text (t : String)
  | toolUse (id name input : String)
  | toolResult (toolUseId content : String) (isError : Bool)
deriving DecidableEq

/-- A content block together with its `cache_control` mark.  Stored
messages carry `cache := false`; the shaper sets `cache := true` where the
code attaches `cache_control: ephemeral`. -/
structure CBlock where
  data : BlockData
  cache : Bool
deriving DecidableEq

/-- `content: MessageContent[] | string` of `types.ts`. -/
inductive MsgContent
  | str (s : String)
  | blocks (bs : List CBlock)
deriving DecidableEq

/-- A stored message (role + content; timestamp omitted, see header). -/
structure Message where
  role : Role
  content : MsgContent
deriving DecidableEq

/-- The user message built at ChatView.tsx lines 156-163. -/
def userMsg (t : String) : Message :=
  ⟨Role.user, MsgContent.blocks [⟨BlockData.text t, false⟩]⟩

/-- The streamed assistant message (one growing text block,
ChatView.tsx lines 312-322). -/
def assistantMsg (t : String) : Message :=
  ⟨Role.assistant, MsgContent.blocks [⟨BlockData.text t, false⟩]⟩

/-- A tool-result message (ChatView.tsx lines 393-401 on success,
409-418 on error). -/
def toolResultMsg (id content : String) (isError : Bool) : Message :=
  ⟨Role.user, MsgContent.blocks [⟨BlockData.toolResult id content isError, false⟩]⟩

/-! ## JS string routines on `List Char` -/

/-- ASCII whitespace recognised by `String.prototype.trim` (the subset
that can occur in the modelled inputs). -/
def wsChar (c : Char) : Bool :=
  c == Char.ofNat 32 || c == Char.ofNat 9 || c == Char.ofNat 10 || c == Char.ofNat 13

/-- JS `s.trim()`. -/
def trimChars (s : List Char) : List Char :=
  ((s.dropWhile wsChar).reverse.dropWhile wsChar).reverse

/-- Split a char list at the first occurrence of the (non-empty) pattern
`pat`: `some (before, after)` when `pat` occurs, scanning left to right,
`none` otherwise.  This is the search step of JS `split`/`replace`. -/
def breakOnPat (pat : List Char) : List Char → Option (List Char × List Char)
  | [] => none
  | c :: rest =>
    if pat.isPrefixOf (c :: rest) then some ([], (c :: rest).drop pat.length)
    else
      match breakOnPat pat rest with
      | some (a, b) => some (c :: a, b)
      | none => none

/-- The separator `': '` of ChatView.tsx line 275. -/
def colonSpace : List Char := [Char.ofNat 58, Char.ofNat 32]

/-- `line.split(': ')[0]`: always defined in JS. -/
def part0 (line : List Char) : List Char :=
  match breakOnPat colonSpace line with
  | none => line
  | some (a, _) => a

/-- `line.split(': ')[1]`: `none` models JS `undefined` (no `': '` in the
line), otherwise the text between the first and second separator. -/
def part1 (line : List Char) : Option (List Char) :=
  match breakOnPat colonSpace line with
  | none => none
  | some (_, rest) =>
    some (match breakOnPat colonSpace rest with
          | none => rest
          | some (v, _) => v)

/-- JS `s.split(sep)` for a single-character separator (line 272 uses
`'\n'`).  `''.split(c) = ['']` as in JS. -/
def splitOnChar (sep : Char) : List Char → List (List Char)
  | [] => [[]]
  | c :: rest =>
    if c == sep then [] :: splitOnChar sep rest
    else
      match splitOnChar sep rest with
      | [] => [[c]]
      | g :: gs => (c :: g) :: gs

/-- JS `s.replace(pat, '')` for a plain string pattern: remove the first
occurrence (all `replace` calls of ChatView.tsx lines 362-367 have an
empty replacement). -/
def replaceFirst (pat : List Char) (s : List Char) : List Char :=
  match breakOnPat pat s with
  | none => s
  | some (a, b) => a ++ b

/-! ## savedToolResults verdict parsing (ChatView.tsx lines 270-285) -/

/-- JS-`Set` insertion: `savedToolResults.add(key)` (line 279). -/
def insertId (s : List String) (k : String) : List String :=
  if k ∈ s then s else s ++ [k]

/-- JS-`Set` deletion: `savedToolResults.delete(key)` (line 282). -/
def eraseId (s : List String) (k : String) : List String :=
  s.filter (fun x => decide (x ≠ k))

/-- One iteration of the `for (const line of lines)` loop, lines 274-284:
`const [key, value] = line.split(': ')`.  When the line holds no `': '`
separator, `value` is `undefined` and `value.trim()` throws a `TypeError`
— modelled as `Except.error` carrying the offending line. -/
def processLine (saved : List String) (line : List Char) : Except String (List String) :=
  match part1 line with
  | none => Except.error (String.mk line)
  | some v =>
    if String.mk (trimChars v) = "Yes" then Except.ok (insertId saved (String.mk (part0 line)))
    else if String.mk (trimChars v) = "No" then Except.ok (eraseId saved (String.mk (part0 line)))
    else Except.ok saved

/-- The whole verdict-parsing loop over the reply's lines. -/
def processLines (saved : List String) : List (List Char) → Except String (List String)
  | [] => Except.ok saved
  | l :: rest =>
    match processLine saved l with
    | Except.error e => Except.error e
    | Except.ok s => processLines s rest

/-- Parsing the judge reply text:
`keepToolResponse.content[0].text.split('\n')` then the loop. -/
def parseReply (reply : String) (saved : List String) : Except String (List String) :=
  processLines saved (splitOnChar (Char.ofNat 10) reply.data)

/-- Specification-side reading of one verdict line: `some (id, true)` for
a well-formed `<id>: Yes` line, `some (id, false)` for `<id>: No`, `none`
when the line parses to no verdict (missing separator or other value). -/
def lineVerdict (line : List Char) : Option (String × Bool) :=
  match part1 line with
  | none => none
  | some v =>
    if String.mk (trimChars v) = "Yes" then some (String.mk (part0 line), true)
    else if String.mk (trimChars v) = "No" then some (String.mk (part0 line), false)
    else none

/-- The last parsed verdict for `id` among `lines` (later lines win). -/
def lastVerdict : List (List Char) → String → Option Bool
  | [], _ => none
  | l :: rest, id =>
    match lastVerdict rest id with
    | some b => some b
    | none =>
      match lineVerdict l with
      | some (k, b) => if k = id then some b else none
      | none => none

/-! ## Context/cache shaper: `cachedApiMessages` (ChatView.tsx lines 187-207) -/

/-- `m.content.map((c, index, array) => index != array.length - 1 ? c :
{...c, cache_control: ephemeral})`: every block but the last unchanged,
the last marked cache-eligible. -/
def markLastCache : List CBlock → List CBlock
  | [] => []
  | [b] => [{ b with cache := true }]
  | b :: rest => b :: markLastCache rest

/-- The trailing-window branch of the shaper (lines 194-206): plain-text
content is normalised to one marked text block; block-list content has
its last block marked. -/
def shapeMessage (m : Message) : Message :=
  match m.content with
  | MsgContent.str s => { role := m.role, content := MsgContent.blocks [⟨BlockData.text s, true⟩] }
  | MsgContent.blocks bs => { role := m.role, content := MsgContent.blocks (markLastCache bs) }

/-- `currentMessages.map((m, index, array) => index < array.length - 3 ?
passthrough : shaped)`; `total` is `array.length`, `i` the index of the
head of the remaining list.  The passthrough branch keeps role and
content unchanged (it only drops the omitted `timestamp`). -/
def cachedApiMessagesAux (total : Nat) : Nat → List Message → List Message
  | _, [] => []
  | i, m :: rest =>
    (if i + 3 < total then m else shapeMessage m) :: cachedApiMessagesAux total (i + 1) rest

/-- The shaped payload `cachedApiMessages` of ChatView.tsx lines 187-207. -/
def cachedApiMessages (msgs : List Message) : List Message :=
  cachedApiMessagesAux msgs.length 0 msgs

/-- The `tool_use_id` of a tool-result block. -/
def blockToolResultId : BlockData → Option String
  | BlockData.toolResult id _ _ => some id
  | _ => none

/-- The `tool_use_id`s of the tool-result blocks of one message, in
order (string content holds none). -/
def msgToolResults (m : Message) : List String :=
  match m.content with
  | MsgContent.str _ => []
  | MsgContent.blocks bs => bs.filterMap (fun b => blockToolResultId b.data)

/-- `newestToolResultId` of ChatView.tsx lines 209-218: filter the
array-content messages, flatten their blocks, keep the tool results, map
to ids, `pop` the last. -/
def newestToolResultId (msgs : List Message) : Option String :=
  ((msgs.map msgToolResults).flatten).getLast?

/-- Collapse of a to-be-elided message (lines 303-309):
`content: [{...msg.content[0], content: 'elided'}]`.  Replacing the
`content` field of a `tool_result` block rewrites its payload; spreading
onto a text or tool-use block only adds an untyped extra field, so those
are unchanged. -/
def setElided : BlockData → BlockData
  | BlockData.toolResult id _ e => BlockData.toolResult id "elided" e
  | b => b

/-- `[{...msg.content[0], content: 'elided'}]`. -/
def elideFirst : List CBlock → List CBlock
  | [] => []
  | b :: _ => [{ b with data := setElided b.data }]

/-- The per-message elision map of `apiMessagesToSend` (lines 292-310):
find the first tool-result block; keep the message when its id is the
newest tool result or was judged worth saving, otherwise collapse it. -/
def emap (newest : Option String) (saved : List String) (m : Message) : Message :=
  match m.content with
  | MsgContent.str _ => m
  | MsgContent.blocks bs =>
    match (bs.filterMap (fun b => blockToolResultId b.data)).head? with
    | none => m
    | some tid =>
      if newest = some tid ∨ tid ∈ saved then m
      else { m with content := MsgContent.blocks (elideFirst bs) }

/-- `apiMessagesToSend` of ChatView.tsx lines 290-310: the shaped
payload, run through the elision map when `elideToolResults` is set. -/
def buildPayload (elide : Bool) (saved : List String) (msgs : List Message) : List Message :=
  if elide then
    (cachedApiMessages msgs).map (emap (newestToolResultId msgs) saved)
  else cachedApiMessages msgs

/-! ## Title stripping (ChatView.tsx lines 362-368) -/

/-- `.replace(/["']/g, '').replace('title:', '').replace('Title:', '')
.replace('title', '').replace('Title', '').trim()`. -/
def stripTitle (reply : String) : String :=
  let noQuotes := reply.data.filter (fun c => !(c == Char.ofNat 34 || c == Char.ofNat 39))
  let r1 := replaceFirst "title:".data noQuotes
  let r2 := replaceFirst "Title:".data r1
  let r3 := replaceFirst "title".data r2
  let r4 := replaceFirst "Title".data r3
  String.mk (trimChars r4)

/-- Default message for out-of-range `List.getD` reads in statements. -/
def mDefault : Message := ⟨Role.user, MsgContent.str ""⟩

/-! ## Streaming orchestrator: the `while (true)` loop of
`handleSendMessage` (ChatView.tsx lines 186-429) -/

/-- A provider response: the content blocks of the settled
`finalResponse` of one main request. -/
structure Resp where
  content : List BlockData
deriving DecidableEq

/-- An MCP tool server as the dispatcher sees it (`s.tools` reduced to
the advertised tool names, the only field the dispatch reads). -/
structure Server where
  id : String
  tools : List String
deriving DecidableEq

/-- The tool-server resolution of ChatView.tsx lines 379-381:
`servers.find(s => s.tools?.some(t => t.name === name))` — the first
match among ALL connected servers. -/
def findSrv (servers : List Server) (name : String) : Option Server :=
  servers.find? (fun s => s.tools.contains name)

/-- Modelled from the spec (section 4.3 `ExecutingTool`): resolution of
the "first server, among the project's configured servers, whose
advertised tool list contains the name".  `configured` is the id list of
`activeProject.settings.mcpServers`.  This definition follows the spec's
words; the code's dispatcher is `findSrv`, which ignores `configured`. -/
def resolveServerSpec (configured : List String) (servers : List Server) (name : String) :
    Option Server :=
  (servers.filter (fun s => configured.contains s.id)).find? (fun s => s.tools.contains name)

/-- Fixed inputs of one orchestration run.  `judgeReply i` is the text of
the elision-judge reply if that call fires at iteration `i`;
`execOutcome` is the tool transport (`executeTool`) by tool name and
input; `titleOutcome` the result of the title-generation call. -/
structure Env where
  servers : List Server
  elide : Bool
  judgeReply : Nat → String
  execOutcome : String → String → Except String String
  titleOutcome : Except String String
deriving Inhabited

/-- Mutable state of one run of `handleSendMessage`.  `payloads` records
the `messages` array of every main provider request issued, in order
(its length is the number of `Sending` states entered). -/
structure RunState where
  currentMessages : List Message
  store : List Message
  saved : List String
  title : Option String
  titleCalls : Nat
  payloads : List (List Message)
  cancelled : Bool
deriving DecidableEq

/-- The elision-judge trigger of ChatView.tsx line 221: the first content
block of the last shaped message is a tool result.  (String content has
no typed `[0].type`; the last message is never empty in a run.) -/
def judgeFires (cached : List Message) : Bool :=
  match cached.getLast? with
  | some m =>
    match m.content with
    | MsgContent.blocks (b :: _) =>
      match b.data with
      | BlockData.toolResult _ _ _ => true
      | _ => false
    | _ => false
  | none => false

/-- Concatenation of the text deltas streamed for a response (the SDK
fires one `'text'` event per text delta; their concatenation is the text
content of the final message). -/
def concatTexts (content : List BlockData) : String :=
  content.foldl (fun acc b => match b with | BlockData.text t => acc ++ t | _ => acc) ""

/-- Store contents after the stream settles (lines 334-339): every text
delta re-upserts `[...currentMessages, currentStreamMessage]`; with no
text delta the store keeps its previous value. -/
def streamStore (st : RunState) (resp : Resp) : List Message :=
  if concatTexts resp.content = "" then st.store
  else st.currentMessages ++ [assistantMsg (concatTexts resp.content)]

/-- Title generation step, ChatView.tsx lines 344-373: fires iff
`cachedApiMessages.length === 2`; a rejected call escapes (no local
catch); a non-empty stripped title renames the conversation. -/
def titleStep (env : Env) (cachedLen : Nat) (st : RunState) : Except String RunState :=
  if cachedLen = 2 then
    match env.titleOutcome with
    | Except.error e => Except.error e
    | Except.ok reply =>
      Except.ok { st with
        titleCalls := st.titleCalls + 1,
        title := if stripTitle reply = "" then st.title else some (stripTitle reply) }
  else Except.ok st

/-- First `tool_use` block of the final response
(`finalResponse.content.find(c => c.type === 'tool_use')`, line 376). -/
def blockToolUse : BlockData → Option (String × String × String)
  | BlockData.toolUse id name input => some (id, name, input)
  | _ => none

/-- `(id, name, input)` of the dispatched tool use, if any. -/
def firstToolUse (content : List BlockData) : Option (String × String × String) :=
  (content.filterMap blockToolUse).head?

/-- Tool dispatch and the loop-bottom check, ChatView.tsx lines 376-428.
`cancel` is true when the cancellation flag gets set during this
iteration's tool phase.  Returns the new state and whether the loop
continues.  Source behaviour kept faithfully: on dispatcher success the
`continue` at line 407 skips the `shouldCancelRef` check of line 426, so
that path always continues; the missing-server and transport-error paths
append an `is_error` tool result and reach the line-426 check. -/
def toolPhase (env : Env) (cancel : Bool) (resp : Resp) (st : RunState) : RunState × Bool :=
  match firstToolUse resp.content with
  | none => (st, false)
  | some (id, name, input) =>
    let c' := st.cancelled || cancel
    match findSrv env.servers name with
    | none =>
      let cm := st.currentMessages ++
        [toolResultMsg id (String.append "Error: No server found for tool " name) true]
      ({ st with currentMessages := cm, store := cm, cancelled := c' }, !c')
    | some _ =>
      match env.execOutcome name input with
      | Except.ok result =>
        let cm := st.currentMessages ++ [toolResultMsg id result false]
        ({ st with currentMessages := cm, store := cm, cancelled := c' }, true)
      | Except.error emsg =>
        let cm := st.currentMessages ++
          [toolResultMsg id (String.append "Error: " emsg) true]
        ({ st with currentMessages := cm, store := cm, cancelled := c' }, !c')

/-- One iteration of the `while (true)` body, in source order: elision
judge (may throw), payload build and request, stream upserts, title step
(may throw), tool phase and loop check. -/
def runIter (env : Env) (cancel : Bool) (jreply : String) (resp : Resp) (st : RunState) :
    Except String (RunState × Bool) :=
  match (if env.elide && judgeFires (cachedApiMessages st.currentMessages) then
           parseReply jreply st.saved
         else Except.ok st.saved) with
  | Except.error e => Except.error e
  | Except.ok saved' =>
    match titleStep env (cachedApiMessages st.currentMessages).length
        { st with
          saved := saved',
          payloads := st.payloads ++ [buildPayload env.elide saved' st.currentMessages],
          store := streamStore st resp } with
    | Except.error e => Except.error e
    | Except.ok st2 => Except.ok (toolPhase env cancel resp st2)

/-- The loop, one script entry per provider response.  A result flag of
`false` means the loop exited through the `break` of line 427; `true`
means the supplied script ran out while the code would have issued
another request. -/
def runLoop (env : Env) (cancel : Nat → Bool) :
    List Resp → Nat → RunState → Except String (RunState × Bool)
  | [], _, st => Except.ok (st, true)
  | resp :: rest, i, st =>
    match runIter env (cancel i) (env.judgeReply i) resp st with
    | Except.error e => Except.error e
    | Except.ok (st', true) => runLoop env cancel rest (i + 1) st'
    | Except.ok (st', false) => Except.ok (st', false)

/-- State before the loop (lines 156-177): the user message is appended
to `currentMessages` and the store, `savedToolResults` starts empty. -/
def initState (history : List Message) (txt : String) : RunState :=
  { currentMessages := history ++ [userMsg txt],
    store := history ++ [userMsg txt],
    saved := [],
    title := none,
    titleCalls := 0,
    payloads := [],
    cancelled := false }

/-- A whole turn of `handleSendMessage` against the response script. -/
def run (env : Env) (cancel : Nat → Bool) (script : List Resp) (history : List Message)
    (txt : String) : Except String (RunState × Bool) :=
  runLoop env cancel script 0 (initState history txt)

/-! ### Projections of a run result -/

/-- The surfaced error of an aborted turn (caught at line 431), if any. -/
def errOf : Except String (RunState × Bool) → Option String
  | Except.error e => some e
  | Except.ok _ => none

/-- `true` iff the turn completed and the loop exited via `break`. -/
def finishedOk : Except String (RunState × Bool) → Bool
  | Except.ok (_, false) => true
  | _ => false

/-- Stored conversation at the end of the run. -/
def storeOf : Except String (RunState × Bool) → List Message
  | Except.ok (st, _) => st.store
  | Except.error _ => []

/-- `currentMessages` at the end of the run. -/
def cmOf : Except String (RunState × Bool) → List Message
  | Except.ok (st, _) => st.currentMessages
  | Except.error _ => []

/-- Number of main provider requests issued. -/
def payloadCountOf : Except String (RunState × Bool) → Nat
  | Except.ok (st, _) => st.payloads.length
  | Except.error _ => 0

/-- Number of title-generation calls issued. -/
def titleCallsOf : Except String (RunState × Bool) → Nat
  | Except.ok (st, _) => st.titleCalls
  | Except.error _ => 0

/-- Conversation title at the end of the run, when renamed. -/
def titleOf : Except String (RunState × Bool) → Option String
  | Except.ok (st, _) => st.title
  | Except.error _ => none

/-- Cancellation flag at the end of the run. -/
def cancelledOf : Except String (RunState × Bool) → Bool
  | Except.ok (st, _) => st.cancelled
  | Except.error _ => false

/-- The block data of a message's content blocks. -/
def msgBlockDatas (m : Message) : List BlockData :=
  match m.content with
  | MsgContent.str _ => []
  | MsgContent.blocks bs => bs.map (fun b => b.data)

/-- Number of `tool_use` blocks across a message list. -/
def countToolUses (l : List Message) : Nat :=
  (((l.map msgBlockDatas).flatten).filter (fun b => (blockToolUse b).isSome)).length

/-- Number of `tool_result` blocks across a message list. -/
def countToolResults (l : List Message) : Nat :=
  (((l.map msgBlockDatas).flatten).filter (fun b => (blockToolResultId b).isSome)).length

/-- Number of assistant-role messages in a list. -/
def countAssistant (l : List Message) : Nat :=
  (l.filter (fun m => decide (m.role = Role.assistant))).length

/-- A message holding exactly one `tool_result` block (the shape of
every message `handleSendMessage` appends after the user message). -/
def isTRonly (m : Message) : Bool :=
  match m.content with
  | MsgContent.blocks [⟨BlockData.toolResult _ _ _, _⟩] => true
  | _ => false

/-! ## Concrete fixtures -/

/-- A server advertising the tool `search`. -/
def srvSearch : Server := ⟨"s1", ["search"]⟩

/-- Cancellation never requested. -/
def czNone : Nat → Bool := fun _ => false

/-- Cancellation flag set during the tool phase of iteration 0. -/
def czFirst : Nat → Bool := fun i => i == 0

/-- Environment: `search` server available, elision off, tool calls
return `42 results`, title call replies `A Chat`. -/
def envTool : Env :=
  { servers := [srvSearch], elide := false,
    judgeReply := fun _ => "",
    execOutcome := fun _ _ => Except.ok "42 results",
    titleOutcome := Except.ok "A Chat" }

/-- Two prior stored messages (a completed earlier exchange). -/
def hist2 : List Message :=
  [⟨Role.user, MsgContent.blocks [⟨BlockData.text "a", false⟩]⟩,
   ⟨Role.assistant, MsgContent.blocks [⟨BlockData.text "b", false⟩]⟩]

/-- Script: one tool-use response, then a final text response. -/
def scriptToolThenText : List Resp :=
  [⟨[BlockData.toolUse "t1" "search" "q"]⟩, ⟨[BlockData.text "done"]⟩]

/-- Script: a single final text response, no tool use. -/
def scriptTextOnly : List Resp := [⟨[BlockData.text "4"]⟩]

/-- Environment with elision on and a judge reply whose single line has
no `': '` separator. -/
def envJudgeBad : Env :=
  { servers := [srvSearch], elide := true,
    judgeReply := fun _ => "garbage",
    execOutcome := fun _ _ => Except.ok "42 results",
    titleOutcome := Except.ok "A Chat" }

/-- Environment whose title-generation call rejects. -/
def envTitleFail : Env :=
  { servers := [srvSearch], elide := false,
    judgeReply := fun _ => "",
    execOutcome := fun _ _ => Except.ok "42 results",
    titleOutcome := Except.error "network down" }

/-- Two-tool-result message: one user message carrying two
`tool_result` blocks, ids `A` then `B` (so `B` is the newest). -/
def exTwoTR : List Message :=
  [⟨Role.user, MsgContent.blocks
      [⟨BlockData.toolResult "A" "ra" false, false⟩,
       ⟨BlockData.toolResult "B" "rb" false, false⟩]⟩]

/-- Whether some message of `l` holds a tool-result block with this id
and this (un-elided) payload. -/
def hasTRContent (l : List Message) (tid c : String) : Bool :=
  l.any (fun m => (msgBlockDatas m).any (fun b =>
    match b with
    | BlockData.toolResult tid2 c2 _ => tid2 == tid && c2 == c
    | _ => false))

/-- The `cache_control` marks of a message's blocks, in order. -/
def cacheFlags (m : Message) : List Bool :=
  match m.content with
  | MsgContent.str _ => []
  | MsgContent.blocks bs => bs.map (fun b => b.cache)

/-- The mark pattern "all blocks unmarked except the last": `[]` for an
empty block list, otherwise `n-1` times `false` then `true`. -/
def markedLast : Nat → List Bool
  | 0 => []
  | n + 1 => List.replicate n false ++ [true]

/-- Total number of cache-marked blocks across a message list. -/
def totalCached (l : List Message) : Nat :=
  (l.map (fun m => (cacheFlags m).count true)).sum

/-- The run state produced by `run envTool czNone scriptTextOnly [] "hi"`
(a plain one-response exchange in a fresh conversation). -/
def stTextOnly : RunState :=
  { currentMessages := [userMsg "hi"],
    store := [userMsg "hi", assistantMsg "4"],
    saved := [],
    title := none,
    titleCalls := 0,
    payloads := [[⟨Role.user, MsgContent.blocks [⟨BlockData.text "hi", true⟩]⟩]],
    cancelled := false }

/-- A history holding a single tool-result message. -/
def exOneTR : List Message := [toolResultMsg "t9" "data" false]

/-- A server that does not advertise `search`. -/
def srvOther : Server := ⟨"s2", ["other"]⟩

/-- Environment whose only server does not advertise `search`. -/
def envNoSearch : Env :=
  { servers := [srvOther], elide := false,
    judgeReply := fun _ => "",
    execOutcome := fun _ _ => Except.ok "x",
    titleOutcome := Except.ok "T" }

/-! ## Helper lemmas: verdict-set membership (for C9) -/

theorem mem_insertId (s : List String) (k a : String) :
    a ∈ insertId s k ↔ a = k ∨ a ∈ s := by
  unfold insertId
  by_cases hk : k ∈ s
  · rw [if_pos hk]
    constructor
    · exact fun h => Or.inr h
    · rintro (rfl | h)
      · exact hk
      · exact h
  · rw [if_neg hk]
    simp [List.mem_append, or_comm]

theorem mem_eraseId (s : List String) (k a : String) :
    a ∈ eraseId s k ↔ a ∈ s ∧ a ≠ k := by
  unfold eraseId
  simp [List.mem_filter]

theorem processLine_ok (init : List String) (l : List Char) (s₁ : List String)
    (h : processLine init l = Except.ok s₁) :
    (∃ k, lineVerdict l = some (k, true) ∧ s₁ = insertId init k) ∨
    (∃ k, lineVerdict l = some (k, false) ∧ s₁ = eraseId init k) ∨
    (lineVerdict l = none ∧ s₁ = init) := by
  unfold processLine at h
  unfold lineVerdict
  cases hp : part1 l with
  | none => simp [hp] at h
  | some v =>
    simp only [hp] at h ⊢
    by_cases hy : String.mk (trimChars v) = "Yes"
    · rw [if_pos hy] at h ⊢
      cases h
      exact Or.inl ⟨_, rfl, rfl⟩
    · by_cases hn : String.mk (trimChars v) = "No"
      · rw [if_neg hy, if_pos hn] at h
        rw [if_neg hy, if_pos hn]
        cases h
        exact Or.inr (Or.inl ⟨_, rfl, rfl⟩)
      · rw [if_neg hy, if_neg hn] at h
        rw [if_neg hy, if_neg hn]
        cases h
        exact Or.inr (Or.inr ⟨rfl, rfl⟩)

theorem processLines_mem (lines : List (List Char)) :
    ∀ (init s : List String), processLines init lines = Except.ok s → ∀ id : String,
      (id ∈ s ↔ lastVerdict lines id = some true ∨
        (lastVerdict lines id = none ∧ id ∈ init)) := by
  induction lines with
  | nil =>
    intro init s h id
    unfold processLines at h
    cases h
    simp [lastVerdict]
  | cons l rest ih =>
    intro init s h id
    unfold processLines at h
    cases hl : processLine init l with
    | error e => simp [hl] at h
    | ok s₁ =>
      rw [hl] at h
      have hmem := ih s₁ s h id
      unfold lastVerdict
      rcases processLine_ok init l s₁ hl with ⟨k, hv, hs⟩ | ⟨k, hv, hs⟩ | ⟨hv, hs⟩ <;> subst hs
      · cases hrest : lastVerdict rest id with
        | some b => simp only [hrest] at hmem ⊢; simpa using hmem
        | none =>
          simp only [hrest] at hmem ⊢
          rw [hv]
          by_cases hk : k = id
          · subst hk
            simp [mem_insertId] at hmem
            simp [hmem]
          · simp only [if_neg hk]
            simp [mem_insertId, Ne.symm hk] at hmem
            simp [hmem]
      · cases hrest : lastVerdict rest id with
        | some b => simp only [hrest] at hmem ⊢; simpa using hmem
        | none =>
          simp only [hrest] at hmem ⊢
          rw [hv]
          by_cases hk : k = id
          · subst hk
            simp [mem_eraseId] at hmem
            simp [hmem]
          · simp only [if_neg hk]
            simp [mem_eraseId, Ne.symm hk] at hmem
            simp [hmem]
      · cases hrest : lastVerdict rest id with
        | some b => simp only [hrest] at hmem ⊢; simpa using hmem
        | none =>
          simp only [hrest] at hmem ⊢
          rw [hv]
          simpa using hmem

/-! ## Helper lemmas: the shaper (for C2 and C4) -/

theorem cachedAux_length (t : Nat) : ∀ (i : Nat) (l : List Message),
    (cachedApiMessagesAux t i l).length = l.length := by
  intro i l
  induction l generalizing i with
  | nil => rfl
  | cons m rest ih => simp [cachedApiMessagesAux, ih]

theorem cached_length (msgs : List Message) :
    (cachedApiMessages msgs).length = msgs.length :=
  cachedAux_length msgs.length 0 msgs

theorem cachedAux_getD (t : Nat) : ∀ (l : List Message) (i j : Nat),
    (cachedApiMessagesAux t i l).getD j mDefault =
      if j < l.length then
        (if i + j + 3 < t then l.getD j mDefault else shapeMessage (l.getD j mDefault))
      else mDefault := by
  intro l
  induction l with
  | nil => intro i j; simp [cachedApiMessagesAux]
  | cons m rest ih =>
    intro i j
    cases j with
    | zero => simp [cachedApiMessagesAux]
    | succ j =>
      have harith : i + (j + 1) + 3 = (i + 1) + j + 3 := by omega
      simp only [cachedApiMessagesAux, List.getD_cons_succ, ih (i + 1) j,
        List.length_cons, Nat.succ_lt_succ_iff, harith]

theorem cached_getD (msgs : List Message) (j : Nat) :
    (cachedApiMessages msgs).getD j mDefault =
      if j < msgs.length then
        (if j + 3 < msgs.length then msgs.getD j mDefault
         else shapeMessage (msgs.getD j mDefault))
      else mDefault := by
  have h := cachedAux_getD msgs.length msgs 0 j
  simpa [cachedApiMessages, Nat.zero_add] using h

theorem markLastCache_data : ∀ bs : List CBlock,
    (markLastCache bs).map (fun b => b.data) = bs.map (fun b => b.data) := by
  intro bs
  induction bs with
  | nil => rfl
  | cons b rest ih =>
    cases rest with
    | nil => rfl
    | cons c cs => simpa [markLastCache] using ih

theorem msgToolResults_shape (m : Message) :
    msgToolResults (shapeMessage m) = msgToolResults m := by
  unfold msgToolResults shapeMessage
  cases m with
  | mk role content =>
    cases content with
    | str s => rfl
    | blocks bs =>
      simp only []
      have h1 : ∀ l : List CBlock,
          l.filterMap (fun b => blockToolResultId b.data) =
            (l.map (fun b => b.data)).filterMap blockToolResultId := by
        intro l
        rw [List.filterMap_map]
        rfl
      rw [h1, h1, markLastCache_data]

theorem markLastCache_flags (bs : List CBlock) (h : ∀ b ∈ bs, b.cache = false) :
    (markLastCache bs).map (fun b => b.cache) = markedLast bs.length := by
  induction bs with
  | nil => rfl
  | cons b rest ih =>
    cases rest with
    | nil => rfl
    | cons c cs =>
      have hb : b.cache = false := h b (List.mem_cons_self b _)
      have hrest : ∀ x ∈ c :: cs, x.cache = false := fun x hx => h x (List.mem_cons_of_mem b hx)
      have ihr := ih hrest
      simp only [markLastCache, List.map_cons, hb, ihr, markedLast, List.length_cons,
        List.replicate_succ, List.cons_append]

theorem markLastCache_length (bs : List CBlock) :
    (markLastCache bs).length = bs.length := by
  have h := congrArg List.length (markLastCache_data bs)
  simpa using h

theorem markedLast_length (n : Nat) : (markedLast n).length = n := by
  cases n with
  | zero => rfl
  | succ n => simp [markedLast]

theorem shape_flags (m : Message) (h : ∀ f ∈ cacheFlags m, f = false) :
    cacheFlags (shapeMessage m) = markedLast (cacheFlags (shapeMessage m)).length := by
  unfold cacheFlags shapeMessage
  cases m with
  | mk role content =>
    cases content with
    | str s => rfl
    | blocks bs =>
      simp only []
      have hb : ∀ b ∈ bs, b.cache = false := by
        intro b hbmem
        exact h b.cache (by simpa [cacheFlags] using List.mem_map_of_mem (fun x => x.cache) hbmem)
      rw [markLastCache_flags bs hb, markedLast_length]

/-! ## Helper lemmas: elision keeps a uniquely-resulted message (for C4) -/

theorem list_len_le_one_eq {α : Type} (l : List α) (a : α) (h1 : l.length ≤ 1)
    (h2 : a ∈ l) : l = [a] := by
  cases l with
  | nil => cases h2
  | cons x rest =>
    cases rest with
    | nil =>
      simp only [List.mem_singleton] at h2
      rw [h2]
    | cons y ys => simp at h1

theorem emap_keep (newest : Option String) (saved : List String) (m : Message) (nid : String)
    (h1 : (msgToolResults m).length ≤ 1) (h2 : nid ∈ msgToolResults m)
    (h3 : newest = some nid) :
    emap newest saved m = m := by
  obtain ⟨role, content⟩ := m
  cases content with
  | str s => rfl
  | blocks bs =>
    have hl : bs.filterMap (fun b => blockToolResultId b.data) = [nid] :=
      list_len_le_one_eq _ _ (by simpa [msgToolResults] using h1)
        (by simpa [msgToolResults] using h2)
    simp [emap, hl, h3]

theorem map_emap_getD (newest : Option String) (saved : List String) (l : List Message)
    (j : Nat) :
    (l.map (emap newest saved)).getD j mDefault = emap newest saved (l.getD j mDefault) := by
  induction l generalizing j with
  | nil => rfl
  | cons m rest ih =>
    cases j with
    | zero => rfl
    | succ j => simpa using ih j

theorem getD_mem (l : List Message) (j : Nat) (h : j < l.length) :
    l.getD j mDefault ∈ l := by
  rw [List.getD_eq_getElem l mDefault h]
  exact List.getElem_mem h

/-! ## Helper lemmas: roles and payload shape through the loop (for C10) -/

theorem countAssistant_cons (m : Message) (l : List Message) :
    countAssistant (m :: l) =
      (if m.role = Role.assistant then 1 else 0) + countAssistant l := by
  unfold countAssistant
  by_cases h : m.role = Role.assistant
  · simp [List.filter_cons, h, Nat.add_comm]
  · simp [List.filter_cons, h]

theorem countAssistant_append (a b : List Message) :
    countAssistant (a ++ b) = countAssistant a + countAssistant b := by
  unfold countAssistant
  rw [List.filter_append, List.length_append]

theorem countAssistant_users (l : List Message) (h : ∀ m ∈ l, m.role = Role.user) :
    countAssistant l = 0 := by
  induction l with
  | nil => rfl
  | cons m rest ih =>
    rw [countAssistant_cons, h m (List.mem_cons_self m rest)]
    simp [ih fun x hx => h x (List.mem_cons_of_mem m hx)]

theorem shapeMessage_role (m : Message) : (shapeMessage m).role = m.role := by
  obtain ⟨r, c⟩ := m
  cases c <;> rfl

theorem emap_role (newest : Option String) (saved : List String) (m : Message) :
    (emap newest saved m).role = m.role := by
  obtain ⟨r, c⟩ := m
  cases c with
  | str s => rfl
  | blocks bs =>
    unfold emap
    simp only
    cases (bs.filterMap (fun b => blockToolResultId b.data)).head? with
    | none => rfl
    | some tid =>
      by_cases h : newest = some tid ∨ tid ∈ saved
      · simp [h]
      · simp [h]

theorem countAssistant_cachedAux (t : Nat) : ∀ (i : Nat) (l : List Message),
    countAssistant (cachedApiMessagesAux t i l) = countAssistant l := by
  intro i l
  induction l generalizing i with
  | nil => rfl
  | cons m rest ih =>
    simp only [cachedApiMessagesAux]
    rw [countAssistant_cons, countAssistant_cons, ih]
    congr 1
    by_cases hc : i + 3 < t
    · rw [if_pos hc]
    · rw [if_neg hc, shapeMessage_role]

theorem countAssistant_map_emap (newest : Option String) (saved : List String)
    (l : List Message) :
    countAssistant (l.map (emap newest saved)) = countAssistant l := by
  induction l with
  | nil => rfl
  | cons m rest ih =>
    simp only [List.map_cons]
    rw [countAssistant_cons, countAssistant_cons, ih, emap_role]

theorem countAssistant_buildPayload (e : Bool) (s : List String) (msgs : List Message) :
    countAssistant (buildPayload e s msgs) = countAssistant msgs := by
  unfold buildPayload
  cases e with
  | false => simpa [cachedApiMessages] using countAssistant_cachedAux msgs.length 0 msgs
  | true =>
    rw [if_pos rfl, countAssistant_map_emap]
    simpa [cachedApiMessages] using countAssistant_cachedAux msgs.length 0 msgs

theorem toolPhase_effect (env : Env) (cancel : Bool) (resp : Resp) (st : RunState) :
    (∃ tail, (toolPhase env cancel resp st).1.currentMessages = st.currentMessages ++ tail ∧
       ∀ m ∈ tail, m.role = Role.user ∧ isTRonly m = true) ∧
    (toolPhase env cancel resp st).1.payloads = st.payloads := by
  unfold toolPhase
  cases firstToolUse resp.content with
  | none => exact ⟨⟨[], by simp, by simp⟩, rfl⟩
  | some tu =>
    obtain ⟨id, name, input⟩ := tu
    simp only
    cases findSrv env.servers name with
    | none =>
      refine ⟨⟨[toolResultMsg id (String.append "Error: No server found for tool " name) true],
        rfl, ?_⟩, rfl⟩
      intro m hm
      simp only [List.mem_singleton] at hm
      subst hm
      exact ⟨rfl, rfl⟩
    | some srv =>
      cases env.execOutcome name input with
      | ok result =>
        refine ⟨⟨[toolResultMsg id result false], rfl, ?_⟩, rfl⟩
        intro m hm
        simp only [List.mem_singleton] at hm
        subst hm
        exact ⟨rfl, rfl⟩
      | error emsg =>
        refine ⟨⟨[toolResultMsg id (String.append "Error: " emsg) true], rfl, ?_⟩, rfl⟩
        intro m hm
        simp only [List.mem_singleton] at hm
        subst hm
        exact ⟨rfl, rfl⟩

theorem titleStep_effect (env : Env) (n : Nat) (st st' : RunState)
    (h : titleStep env n st = Except.ok st') :
    st'.currentMessages = st.currentMessages ∧ st'.payloads = st.payloads := by
  unfold titleStep at h
  split at h
  · cases henv : env.titleOutcome with
    | error e => rw [henv] at h; simp at h
    | ok reply =>
      rw [henv] at h
      simp only [Except.ok.injEq] at h
      subst h
      exact ⟨rfl, rfl⟩
  · simp only [Except.ok.injEq] at h
    subst h
    exact ⟨rfl, rfl⟩

theorem runIter_effect (env : Env) (cb : Bool) (jr : String) (resp : Resp)
    (st st' : RunState) (cont : Bool)
    (h : runIter env cb jr resp st = Except.ok (st', cont)) :
    (∃ tail, st'.currentMessages = st.currentMessages ++ tail ∧
        ∀ m ∈ tail, m.role = Role.user ∧ isTRonly m = true) ∧
    (∃ sv, st'.payloads = st.payloads ++ [buildPayload env.elide sv st.currentMessages]) := by
  unfold runIter at h
  cases hj : (if env.elide && judgeFires (cachedApiMessages st.currentMessages) then
      parseReply jr st.saved else Except.ok st.saved) with
  | error e => rw [hj] at h; simp at h
  | ok saved' =>
    rw [hj] at h
    simp only at h
    cases ht : titleStep env (cachedApiMessages st.currentMessages).length
        { st with
          saved := saved',
          payloads := st.payloads ++ [buildPayload env.elide saved' st.currentMessages],
          store := streamStore st resp } with
    | error e => rw [ht] at h; simp at h
    | ok st2 =>
      rw [ht] at h
      have heq : toolPhase env cb resp st2 = (st', cont) := by simpa using h
      have hst' : st' = (toolPhase env cb resp st2).1 := by rw [heq]
      obtain ⟨hcm2, hpl2⟩ := titleStep_effect env _ _ st2 ht
      obtain ⟨⟨tail, htl, htail⟩, hpl⟩ := toolPhase_effect env cb resp st2
      subst hst'
      constructor
      · exact ⟨tail, by rw [htl, hcm2], htail⟩
      · exact ⟨saved', by rw [hpl, hpl2]⟩

theorem runLoop_inv (env : Env) (cancel : Nat → Bool) (hist : List Message) (u : Message)
    (hu : u.role = Role.user) :
    ∀ (script : List Resp) (i : Nat) (st st' : RunState) (b : Bool),
      (∃ trs, st.currentMessages = hist ++ u :: trs ∧
        ∀ m ∈ trs, m.role = Role.user ∧ isTRonly m = true) →
      (∀ p ∈ st.payloads, countAssistant p = countAssistant hist) →
      runLoop env cancel script i st = Except.ok (st', b) →
      (∃ trs, st'.currentMessages = hist ++ u :: trs ∧
        ∀ m ∈ trs, m.role = Role.user ∧ isTRonly m = true) ∧
      (∀ p ∈ st'.payloads, countAssistant p = countAssistant hist) := by
  intro script
  induction script with
  | nil =>
    intro i st st' b h1 h2 h
    unfold runLoop at h
    simp only [Except.ok.injEq, Prod.mk.injEq] at h
    obtain ⟨hst, _⟩ := h
    subst hst
    exact ⟨h1, h2⟩
  | cons resp rest ih =>
    intro i st st' b h1 h2 h
    unfold runLoop at h
    cases hi : runIter env (cancel i) (env.judgeReply i) resp st with
    | error e => rw [hi] at h; simp at h
    | ok p =>
      obtain ⟨st1, cont⟩ := p
      rw [hi] at h
      obtain ⟨⟨tail, hcm, htail⟩, ⟨sv, hpl⟩⟩ :=
        runIter_effect env (cancel i) (env.judgeReply i) resp st st1 cont hi
      obtain ⟨trs, hst, htrs⟩ := h1
      have h1' : ∃ trs', st1.currentMessages = hist ++ u :: trs' ∧
          ∀ m ∈ trs', m.role = Role.user ∧ isTRonly m = true := by
        refine ⟨trs ++ tail, ?_, ?_⟩
        · rw [hcm, hst]
          simp [List.append_assoc]
        · intro m hm
          rcases List.mem_append.mp hm with hmm | hmm
          · exact htrs m hmm
          · exact htail m hmm
      have h2' : ∀ p ∈ st1.payloads, countAssistant p = countAssistant hist := by
        intro p hp
        rw [hpl] at hp
        rcases List.mem_append.mp hp with hpp | hpp
        · exact h2 p hpp
        · simp only [List.mem_singleton] at hpp
          subst hpp
          rw [countAssistant_buildPayload, hst, countAssistant_append]
          have hz : countAssistant (u :: trs) = 0 := by
            apply countAssistant_users
            intro m hm
            rcases List.mem_cons.mp hm with rfl | hmm
            · exact hu
            · exact (htrs m hmm).1
          rw [hz]
          exact Nat.add_zero _
      cases cont with
      | true => exact ih (i + 1) st1 st' b h1' h2' h
      | false =>
        simp only [Except.ok.injEq, Prod.mk.injEq] at h
        obtain ⟨hst1, _⟩ := h
        subst hst1
        exact ⟨h1', h2'⟩

/-! ## Claim theorems -/

/-- Claim C9 (confirmed): for every sequence of judge verdict lines that
the parser processes to completion from the empty set, the saved set
contains exactly the ids whose last parsed verdict is `Yes` — an id
added on a `Yes` line and hit by a later `No` line is excluded. -/
theorem claim_C9_saved_set_last_verdict (lines : List (List Char)) (s : List String)
    (h : processLines [] lines = Except.ok s) (id : String) :
    id ∈ s ↔ lastVerdict lines id = some true := by
  have hm := processLines_mem lines [] s h id
  simpa using hm

/-- Witness for C9 at the concrete reply `a: Yes / a: No / b: Yes`:
`b` (last verdict `Yes`) is in the saved set, and `a`
(judged `Yes` then `No`) is not. -/
theorem claim_C9_witness :
    (("b" : String) ∈ ["b"] ↔
      lastVerdict ["a: Yes".data, "a: No".data, "b: Yes".data] "b" = some true) ∧
    (("a" : String) ∈ ["b"] ↔
      lastVerdict ["a: Yes".data, "a: No".data, "b: Yes".data] "a" = some true) :=
  ⟨claim_C9_saved_set_last_verdict ["a: Yes".data, "a: No".data, "b: Yes".data] ["b"] rfl "b",
   claim_C9_saved_set_last_verdict ["a: Yes".data, "a: No".data, "b: Yes".data] ["b"] rfl "a"⟩

/-- Claim C10 (confirmed): in every completed turn the orchestrator's
working list `currentMessages` holds only the prior history, the
submitted user message and tool-result messages — never a streamed
assistant message — and consequently every provider request payload
holds exactly as many assistant messages as the prior history (the
assistant message that carried the tool_use block is omitted from every
follow-up request). -/
theorem claim_C10_assistant_never_in_current_messages (env : Env) (cancel : Nat → Bool)
    (script : List Resp) (hist : List Message) (txt : String) (st : RunState) (b : Bool)
    (h : run env cancel script hist txt = Except.ok (st, b)) :
    (∃ trs, st.currentMessages = hist ++ userMsg txt :: trs ∧
      ∀ m ∈ trs, m.role = Role.user ∧ isTRonly m = true) ∧
    (∀ p ∈ st.payloads, countAssistant p = countAssistant hist) :=
  runLoop_inv env cancel hist (userMsg txt) rfl script 0 (initState hist txt) st b
    ⟨[], rfl, fun m hm => absurd hm (List.not_mem_nil m)⟩
    (fun p hp => absurd hp (List.not_mem_nil p)) h

/-- Witness for C10: the one-exchange run `run envTool czNone
scriptTextOnly [] "hi"` succeeds and satisfies both conclusions. -/
theorem claim_C10_witness :
    (∃ trs, stTextOnly.currentMessages = [] ++ userMsg "hi" :: trs ∧
      ∀ m ∈ trs, m.role = Role.user ∧ isTRonly m = true) ∧
    (∀ p ∈ stTextOnly.payloads, countAssistant p = countAssistant ([] : List Message)) :=
  claim_C10_assistant_never_in_current_messages envTool czNone scriptTextOnly [] "hi"
    stTextOnly false rfl

/-- Counterexample to claim C2 as stated: on the two-message history
`hist2` the shaped payload carries TWO cache-marked blocks, and the
first (not-last) message's block is marked — the claim says exactly one
block is marked and only in the very last message. -/
theorem claim_C2_counterexample :
    totalCached (cachedApiMessages hist2) = 2 ∧
    cacheFlags ((cachedApiMessages hist2).getD 0 mDefault) = [true] := by
  constructor
  · decide
  · decide

/-- Claim C2 as amended: for a history whose stored blocks are unmarked,
the shaper passes every message more than three from the end through
unchanged, and in each message of the trailing window (the last three)
it marks exactly the last content block (every block but the last is
unmarked). -/
theorem claim_C2_amended (msgs : List Message)
    (h : ∀ m ∈ msgs, ∀ f ∈ cacheFlags m, f = false) (j : Nat) :
    (j + 3 < msgs.length →
      (cachedApiMessages msgs).getD j mDefault = msgs.getD j mDefault) ∧
    (msgs.length ≤ j + 3 → j < msgs.length →
      cacheFlags ((cachedApiMessages msgs).getD j mDefault) =
        markedLast (cacheFlags ((cachedApiMessages msgs).getD j mDefault)).length) := by
  constructor
  · intro hlt
    rw [cached_getD, if_pos (by omega), if_pos hlt]
  · intro hge hj
    rw [cached_getD, if_pos hj, if_neg (by omega)]
    exact shape_flags _ (h _ (getD_mem msgs j hj))

/-- Witness for the amended C2 at `hist2`, index 1 (inside the trailing
window): the shaped message's marks are exactly "last block marked". -/
theorem claim_C2_witness :
    cacheFlags ((cachedApiMessages hist2).getD 1 mDefault) =
      markedLast (cacheFlags ((cachedApiMessages hist2).getD 1 mDefault)).length :=
  (claim_C2_amended hist2 (by decide) 1).2 (by decide) (by decide)

/-- Counterexample to claim C4 as stated: for a history whose single
message carries two tool-result blocks (`A` then `B`, so `B` is the
newest), the elision stage keys on the FIRST tool result of the message
(`A`), judges it unsaved, and collapses the whole message — the newest
tool result `B` and its payload `rb` vanish from the outbound payload. -/
theorem claim_C4_counterexample :
    newestToolResultId exTwoTR = some "B" ∧
    hasTRContent exTwoTR "B" "rb" = true ∧
    hasTRContent (buildPayload true [] exTwoTR) "B" "rb" = false := by
  refine ⟨by decide, by decide, by decide⟩

/-- Claim C4 as amended: when every message of the history carries at
most one tool-result block (true of every history the orchestrator
builds), the message holding the newest tool result passes the elision
stage unchanged — the outbound payload never elides its content,
whatever the judge answered. -/
theorem claim_C4_amended (msgs : List Message) (saved : List String) (nid : String) (j : Nat)
    (h1 : ∀ m ∈ msgs, (msgToolResults m).length ≤ 1)
    (h2 : newestToolResultId msgs = some nid)
    (h3 : nid ∈ msgToolResults (msgs.getD j mDefault)) :
    (buildPayload true saved msgs).getD j mDefault =
      (cachedApiMessages msgs).getD j mDefault := by
  unfold buildPayload
  rw [if_pos rfl, map_emap_getD]
  by_cases hj : j < msgs.length
  · rw [cached_getD, if_pos hj]
    by_cases hw : j + 3 < msgs.length
    · rw [if_pos hw]
      exact emap_keep _ saved _ nid (h1 _ (getD_mem msgs j hj)) h3 h2
    · rw [if_neg hw]
      apply emap_keep _ saved _ nid
      · rw [msgToolResults_shape]
        exact h1 _ (getD_mem msgs j hj)
      · rw [msgToolResults_shape]
        exact h3
      · exact h2
  · exfalso
    rw [List.getD_eq_default] at h3
    · exact absurd h3 (by simp [msgToolResults, mDefault])
    · omega

/-- Witness for the amended C4: a single-tool-result history, any judge
outcome (empty saved set) — the message is kept unchanged. -/
theorem claim_C4_witness :
    (buildPayload true [] exOneTR).getD 0 mDefault =
      (cachedApiMessages exOneTR).getD 0 mDefault :=
  claim_C4_amended exOneTR [] "t9" 0 (by decide) (by decide) (by decide)

/-- Counterexample to claim C6 as stated: with no configured server for
the project but a connected server `s1` advertising `search`, resolution
"among the project's configured servers" (the spec-modelled
`resolveServerSpec`) finds nothing, while the code's dispatcher
(`findSrv`, line 379) resolves `s1` — the dispatcher searches ALL
connected servers, not the configured ones. -/
theorem claim_C6_counterexample :
    findSrv [srvSearch] "search" = some srvSearch ∧
    resolveServerSpec [] [srvSearch] "search" = none := by
  refine ⟨by decide, by decide⟩

/-- Claim C6 as amended: the dispatcher resolves the first server among
ALL connected servers whose advertised tool list contains the requested
name (any resolved server really is a connected server advertising the
name); when no connected server advertises it, the tool phase appends
exactly one tool-result message with `isError = true` and the message
`Error: No server found for tool <name>` to both the working list and
the store, throws nothing, and the loop continues unless cancellation
was requested during the phase. -/
theorem claim_C6_amended (env : Env) (cancel : Bool) (name id input : String)
    (st : RunState) (hc : st.cancelled = false) :
    (∀ s, findSrv env.servers name = some s →
      s ∈ env.servers ∧ s.tools.contains name = true) ∧
    (findSrv env.servers name = none →
      toolPhase env cancel ⟨[BlockData.toolUse id name input]⟩ st =
        ({ st with
            currentMessages := st.currentMessages ++
              [toolResultMsg id (String.append "Error: No server found for tool " name) true],
            store := st.currentMessages ++
              [toolResultMsg id (String.append "Error: No server found for tool " name) true],
            cancelled := cancel },
          !cancel)) := by
  constructor
  · intro s hs
    unfold findSrv at hs
    have h2 := List.find?_some hs
    exact ⟨List.mem_of_find?_eq_some hs, h2⟩
  · intro hn
    unfold toolPhase
    simp only [firstToolUse, List.filterMap, blockToolUse, List.head?, hn, hc,
      Bool.false_or]

/-- Witness for the amended C6: concrete environment whose only server
advertises `other`; dispatching `search` appends the error tool result
and continues. -/
theorem claim_C6_witness :
    (∀ s, findSrv envNoSearch.servers "search" = some s →
      s ∈ envNoSearch.servers ∧ s.tools.contains "search" = true) ∧
    (findSrv envNoSearch.servers "search" = none →
      toolPhase envNoSearch false ⟨[BlockData.toolUse "t1" "search" "q"]⟩ (initState [] "hi") =
        ({ initState [] "hi" with
            currentMessages := (initState [] "hi").currentMessages ++
              [toolResultMsg "t1"
                (String.append "Error: No server found for tool " "search") true],
            store := (initState [] "hi").currentMessages ++
              [toolResultMsg "t1"
                (String.append "Error: No server found for tool " "search") true],
            cancelled := false },
          !false)) :=
  claim_C6_amended envNoSearch false "search" "t1" "q" (initState [] "hi") rfl

/-- Claim C1 (code bug), evaluated at the failing input: a fresh
conversation, one tool_use response (id `t1`) then a final text
response, tool succeeding.  The loop does terminate, but the stored
conversation is `[user, tool_result, assistant-text]`: it contains no
`tool_use` block at all (the streamed assistant message is never pushed
into `currentMessages`, so appending the tool result replaces the store
with a list that lacks the assistant tool_use message), and thus no
alternating tool_use/tool_result pairs as the claim requires. -/
theorem claim_C1_code_bug_eval :
    finishedOk (run envTool czNone scriptToolThenText [] "hi") = true ∧
    storeOf (run envTool czNone scriptToolThenText [] "hi") =
      [userMsg "hi", toolResultMsg "t1" "42 results" false, assistantMsg "done"] ∧
    countToolUses (storeOf (run envTool czNone scriptToolThenText [] "hi")) = 0 ∧
    countToolResults (storeOf (run envTool czNone scriptToolThenText [] "hi")) = 1 :=
  ⟨rfl, rfl, rfl, rfl⟩

/-- Claim C3 (code bug), evaluated at the failing input: a judge reply
whose line `garbage` has no `': '` separator.  `line.split(': ')` yields
no second element, `value` is `undefined`, and `value.trim()` throws —
the error escapes to the outer catch and the turn aborts with that
error, instead of the line being skipped. -/
theorem claim_C3_code_bug_eval :
    errOf (run envJudgeBad czNone scriptToolThenText hist2 "go") = some "garbage" ∧
    processLines [] ["t1: Yes".data, "garbage".data] = Except.error "garbage" :=
  ⟨rfl, rfl⟩

/-- Claim C5 (code bug), evaluated at the failing input: the
cancellation flag is set during the successful tool execution of
iteration 0, yet a second provider request is issued (two payloads are
sent): the `continue` of line 407 skips the only cancellation check
(line 426). -/
theorem claim_C5_code_bug_eval :
    czFirst 0 = true ∧
    payloadCountOf (run envTool czFirst scriptToolThenText hist2 "go") = 2 ∧
    cancelledOf (run envTool czFirst scriptToolThenText hist2 "go") = true :=
  ⟨rfl, rfl, rfl⟩

/-- Claim C7 (code bug), evaluated at the failing input: a brand-new
conversation with a single text-only exchange.  The store reaches 2
messages after the completed turn, yet zero title-generation calls are
issued (`cachedApiMessages.length === 2` is false in the only iteration
because the assistant reply never enters `currentMessages`).  The
stripping itself would behave as claimed. -/
theorem claim_C7_code_bug_eval :
    titleCallsOf (run envTool czNone scriptTextOnly [] "hi") = 0 ∧
    (storeOf (run envTool czNone scriptTextOnly [] "hi")).length = 2 ∧
    finishedOk (run envTool czNone scriptTextOnly [] "hi") = true ∧
    stripTitle "Title: Weather Forecast" = "Weather Forecast" :=
  ⟨rfl, rfl, rfl, by decide⟩

/-- Claim C8 (code bug), evaluated at the failing input: the
title-generation call rejects (`network down`) in a turn where it fires.
The rejection propagates out of the main try block and the turn aborts
with that error; the identical run with a succeeding title call
completes, isolating the title failure as the cause. -/
theorem claim_C8_code_bug_eval :
    errOf (run envTitleFail czNone scriptToolThenText [] "hi") = some "network down" ∧
    errOf (run envTool czNone scriptToolThenText [] "hi") = none :=
  ⟨rfl, rfl⟩
